import Mathlib

/-
Verification of the epoch-level training loop of PyTorchConv3D (src/train.py).

The script is a sequential driver: it builds the list of phases (line 92),
asserts that a validation loader exists when the plateau scheduler is chosen
(lines 107-109), and then runs the main epoch loop (lines 128-203) which

  - runs the training phase and, when configured, the validation phase,
    appending the validation accuracy to val_acc_history (lines 131-160);
  - steps the learning-rate scheduler with the validation loss under the
    plateau policy and with the epoch index otherwise (lines 163-166);
  - writes a best checkpoint when the validation accuracy strictly exceeds
    best_val_acc, and then updates best_val_acc (lines 182-187);
  - writes a periodic checkpoint when epoch is a multiple of
    checkpoint_frequency, then prunes the checkpoint directory (lines 189-194);
  - breaks out of the loop when epoch exceeds early_stopping_patience and
    every element of the Python slice val_acc_history[-patience:] is strictly
    below best_val_acc (lines 196-203).

The embedding below mirrors this control flow over explicit state and an
event trace.  External computations (the epoch iterators, the model and the
optimizer) are abstracted as functions from the epoch index to their results;
accuracies and losses are rationals.  Python runtime errors that the control
flow can raise (AssertionError, ZeroDivisionError on `epoch % 0`, NameError
on an undefined `val_loss`) are modelled with `Except`.
-/

/-- Configuration fields of src/train.py that the main loop reads.
`hasValidation` models whether the key `validation` is present in
`data_loaders` (line 92). -/
structure Config where
  start_epoch : ℕ
  num_epochs : ℕ
  checkpoint_frequency : ℕ
  early_stopping_patience : ℕ
  lr_scheduler : String
  hasValidation : Bool
deriving DecidableEq, Repr

/-- Results of the external calls made inside the loop, as functions of the
epoch index: the outputs of `train_epoch` and `validation_epoch`, and the
values of `model.state_dict()` and `optimizer.state_dict()` at the end of
the given epoch (abstracted as naturals). -/
structure Externals where
  trainLoss : ℕ → ℚ
  trainAcc : ℕ → ℚ
  valLoss : ℕ → ℚ
  valAcc : ℕ → ℚ
  modelState : ℕ → ℕ
  optState : ℕ → ℕ

/-- Mutable Python locals of the main loop.  `val_loss` and `val_acc` are
`Option` because the variables are unbound until the first validation phase
assigns them. -/
structure LoopState where
  val_acc_history : List ℚ
  best_val_acc : ℚ
  val_loss : Option ℚ
  val_acc : Option ℚ
deriving DecidableEq, Repr

/-- Initial state before the loop: `val_acc_history = []`, `best_val_acc = 0.0`
(lines 125-126); `val_loss` and `val_acc` are unbound. -/
def initLoopState : LoopState :=
  { val_acc_history := [], best_val_acc := 0, val_loss := none, val_acc := none }

/-- Argument passed to `scheduler.step` (lines 163-166). -/
inductive SchedArg
  | valLoss (loss : ℚ)
  | epochIdx (epoch : ℕ)
deriving DecidableEq, Repr

/-- Observable actions of one run of the loop.  `saveCheckpoint` records one
call of `save_checkpoint(path, epoch, model.state_dict(), optimizer.state_dict())`
(lines 184 and 192); `cleanupDir` records a call of `cleanup_checkpoint_dir`
(line 194). -/
inductive Event
  | runPhase (phase : String) (epoch : ℕ)
  | schedStep (arg : SchedArg)
  | saveCheckpoint (path : String) (epoch : ℕ) (modelState : ℕ) (optState : ℕ)
  | cleanupDir
  | earlyStop (epoch : ℕ)
deriving DecidableEq, Repr

/-- Line 92: `phases = ['train', 'validation'] if 'validation' in data_loaders else ['train']`. -/
def phasesOf (c : Config) : List String :=
  if c.hasValidation then ["train", "validation"] else ["train"]

/-- Effect of the phase loop (lines 131-160) on the Python locals: the
validation phase, when present, binds `val_loss` and `val_acc` and appends
`val_acc` to `val_acc_history`; the training phase touches none of them. -/
def afterPhases (c : Config) (ext : Externals) (st : LoopState) (epoch : ℕ) : LoopState :=
  if c.hasValidation then
    { st with
      val_loss := some (ext.valLoss epoch)
      val_acc := some (ext.valAcc epoch)
      val_acc_history := st.val_acc_history ++ [ext.valAcc epoch] }
  else st

/-- Lines 163-166: under the plateau policy the scheduler is stepped with
`val_loss` (a NameError if that variable was never bound), otherwise with the
epoch index. -/
def schedStepEvent (c : Config) (st1 : LoopState) (epoch : ℕ) : Except String Event :=
  if c.lr_scheduler = "plateau" then
    match st1.val_loss with
    | none => Except.error "NameError: val_loss"
    | some l => Except.ok (Event.schedStep (SchedArg.valLoss l))
  else Except.ok (Event.schedStep (SchedArg.epochIdx epoch))

/-- Lines 182-187: when a validation phase is configured and `val_acc`
strictly exceeds `best_val_acc`, write `save_best.pth` and update
`best_val_acc`. -/
def bestCheckpoint (c : Config) (ext : Externals) (st1 : LoopState) (epoch : ℕ) :
    Except String (LoopState × List Event) :=
  if c.hasValidation then
    match st1.val_acc with
    | none => Except.error "NameError: val_acc"
    | some a =>
      if st1.best_val_acc < a then
        Except.ok ({ st1 with best_val_acc := a },
          [Event.saveCheckpoint "save_best.pth" epoch (ext.modelState epoch) (ext.optState epoch)])
      else Except.ok (st1, [])
  else Except.ok (st1, [])

/-- Python decimal formatting `format(n)` of a natural number with format
spec `03d`: the decimal digits, left padded with `0` to width at least 3. -/
def zeroPad3 (n : ℕ) : String :=
  let s := Nat.repr n
  if s.length < 3 then String.mk (List.replicate (3 - s.length) '0') ++ s else s

/-- Lines 189-194: when `epoch % checkpoint_frequency == 0`, write the
periodic checkpoint `save_NNN.pth` where NNN is `epoch + 1` zero padded to
width 3, then prune the checkpoint directory.  A zero frequency raises
ZeroDivisionError. -/
def periodicCheckpoint (c : Config) (ext : Externals) (epoch : ℕ) : Except String (List Event) :=
  if c.checkpoint_frequency = 0 then Except.error "ZeroDivisionError"
  else if epoch % c.checkpoint_frequency = 0 then
    Except.ok [Event.saveCheckpoint ("save_" ++ zeroPad3 (epoch + 1) ++ ".pth") epoch
                 (ext.modelState epoch) (ext.optState epoch),
               Event.cleanupDir]
  else Except.ok []

/-- Python slice `l[-k:]`.  For `k` at least 1 this drops all but the last
`k` elements; for `k = 0` the slice `l[-0:]` is `l[0:]`, the whole list. -/
def lastSlice (k : ℕ) (l : List ℚ) : List ℚ :=
  if k = 0 then l else l.drop (l.length - k)

/-- Lines 196-199: the loop breaks when `epoch > early_stopping_patience` and
every element of `val_acc_history[-patience:]` is strictly below
`best_val_acc`, both read from the state after this epoch updated them. -/
def breakFlag (c : Config) (st2 : LoopState) (epoch : ℕ) : Bool :=
  decide (c.early_stopping_patience < epoch) &&
    (lastSlice c.early_stopping_patience st2.val_acc_history).all
      (fun a => decide (a < st2.best_val_acc))

/-- One iteration of the main epoch loop (lines 131-203): phase loop,
scheduler step, best checkpoint, periodic checkpoint, early-stopping test.
Returns the updated locals, the event trace of the iteration, and whether
the iteration ended in `break`. -/
def runEpoch (c : Config) (ext : Externals) (st : LoopState) (epoch : ℕ) :
    Except String (LoopState × List Event × Bool) :=
  let phaseEvents := (phasesOf c).map (fun p => Event.runPhase p epoch)
  let st1 := afterPhases c ext st epoch
  match schedStepEvent c st1 epoch with
  | Except.error s => Except.error s
  | Except.ok schedEv =>
    match bestCheckpoint c ext st1 epoch with
    | Except.error s => Except.error s
    | Except.ok (st2, bestEvs) =>
      match periodicCheckpoint c ext epoch with
      | Except.error s => Except.error s
      | Except.ok perEvs =>
        let brk := breakFlag c st2 epoch
        let stopEvs := if brk then [Event.earlyStop epoch] else []
        Except.ok (st2, phaseEvents ++ schedEv :: (bestEvs ++ perEvs ++ stopEvs), brk)

/-- The main loop over a list of epoch indices, stopping at the first
iteration that breaks. -/
def runEpochs (c : Config) (ext : Externals) : List ℕ → LoopState → Except String (List Event × LoopState)
  | [], st => Except.ok ([], st)
  | e :: rest, st =>
    match runEpoch c ext st e with
    | Except.error s => Except.error s
    | Except.ok (st2, evs, brk) =>
      if brk then Except.ok (evs, st2)
      else
        match runEpochs c ext rest st2 with
        | Except.error s => Except.error s
        | Except.ok (evs2, st3) => Except.ok (evs ++ evs2, st3)

/-- Line 128: `for epoch in range(config.start_epoch, config.num_epochs+1)`. -/
def epochRange (c : Config) : List ℕ :=
  List.range' c.start_epoch (c.num_epochs + 1 - c.start_epoch)

/-- The whole run: the assertion of lines 107-109 (`assert 'validation' in
phases` when the plateau policy is chosen), then the main epoch loop starting
from the initial locals of lines 125-126. -/
def runTrain (c : Config) (ext : Externals) : Except String (List Event × LoopState) :=
  if c.lr_scheduler = "plateau" ∧ c.hasValidation = false then Except.error "AssertionError"
  else runEpochs c ext (epochRange c) initLoopState

/-- Phase executions recorded in a trace, in order. -/
def phaseRunsOf (evs : List Event) : List (String × ℕ) :=
  evs.filterMap (fun ev => match ev with
    | Event.runPhase p e => some (p, e)
    | _ => none)

/-- Epochs whose training phase was executed, in order. -/
def trainRunsOf (evs : List Event) : List ℕ :=
  evs.filterMap (fun ev => match ev with
    | Event.runPhase p e => if p = "train" then some e else none
    | _ => none)

/-- Scheduler step arguments recorded in a trace, in order. -/
def schedStepsOf (evs : List Event) : List SchedArg :=
  evs.filterMap (fun ev => match ev with
    | Event.schedStep a => some a
    | _ => none)

/-- Best-checkpoint writes recorded in a trace: epoch, model state and
optimizer state of each save to `save_best.pth`. -/
def bestSavesOf (evs : List Event) : List (ℕ × ℕ × ℕ) :=
  evs.filterMap (fun ev => match ev with
    | Event.saveCheckpoint p n m o => if p = "save_best.pth" then some (n, m, o) else none
    | _ => none)

/-- Checkpoint writes to a path other than `save_best.pth`. -/
def periodicSavesOf (evs : List Event) : List (String × ℕ × ℕ × ℕ) :=
  evs.filterMap (fun ev => match ev with
    | Event.saveCheckpoint p n m o => if p = "save_best.pth" then none else some (p, n, m, o)
    | _ => none)

/-- Epochs at which the loop broke out early. -/
def earlyStopsOf (evs : List Event) : List ℕ :=
  evs.filterMap (fun ev => match ev with
    | Event.earlyStop e => some e
    | _ => none)

/-- Characterization of a successful scheduler step (lines 163-166). -/
theorem schedStepEvent_ok (c : Config) (st1 : LoopState) (epoch : ℕ) (ev : Event)
    (h : schedStepEvent c st1 epoch = Except.ok ev) :
    (c.lr_scheduler = "plateau" ∧ ∃ l, st1.val_loss = some l ∧
       ev = Event.schedStep (SchedArg.valLoss l)) ∨
    (c.lr_scheduler ≠ "plateau" ∧ ev = Event.schedStep (SchedArg.epochIdx epoch)) := by
  unfold schedStepEvent at h
  split at h
  · next hpl =>
    split at h
    · cases h
    · next l hl => exact Or.inl ⟨hpl, l, hl, (Except.ok.inj h).symm⟩
  · next hpl => exact Or.inr ⟨hpl, (Except.ok.inj h).symm⟩

/-- Characterization of a successful pass through the best-checkpoint branch
(lines 182-187). -/
theorem bestCheckpoint_ok (c : Config) (ext : Externals) (st1 : LoopState) (epoch : ℕ)
    (st2 : LoopState) (bestEvs : List Event)
    (h : bestCheckpoint c ext st1 epoch = Except.ok (st2, bestEvs)) :
    (c.hasValidation = true ∧ ∃ a, st1.val_acc = some a ∧
       ((st1.best_val_acc < a ∧ st2 = { st1 with best_val_acc := a } ∧
           bestEvs = [Event.saveCheckpoint "save_best.pth" epoch
             (ext.modelState epoch) (ext.optState epoch)]) ∨
        (¬ st1.best_val_acc < a ∧ st2 = st1 ∧ bestEvs = []))) ∨
    (c.hasValidation = false ∧ st2 = st1 ∧ bestEvs = []) := by
  unfold bestCheckpoint at h
  split at h
  · next hv =>
    split at h
    · cases h
    · next a ha =>
      split at h
      · next hlt =>
        obtain ⟨h1, h2⟩ := Prod.mk.inj (Except.ok.inj h)
        exact Or.inl ⟨hv, a, ha, Or.inl ⟨hlt, h1.symm, h2.symm⟩⟩
      · next hlt =>
        obtain ⟨h1, h2⟩ := Prod.mk.inj (Except.ok.inj h)
        exact Or.inl ⟨hv, a, ha, Or.inr ⟨hlt, h1.symm, h2.symm⟩⟩
  · next hv =>
    obtain ⟨h1, h2⟩ := Prod.mk.inj (Except.ok.inj h)
    exact Or.inr ⟨by simpa using hv, h1.symm, h2.symm⟩

/-- Characterization of a successful pass through the periodic-checkpoint
branch (lines 189-194). -/
theorem periodicCheckpoint_ok (c : Config) (ext : Externals) (epoch : ℕ) (perEvs : List Event)
    (h : periodicCheckpoint c ext epoch = Except.ok perEvs) :
    c.checkpoint_frequency ≠ 0 ∧
    perEvs = (if epoch % c.checkpoint_frequency = 0 then
      [Event.saveCheckpoint ("save_" ++ zeroPad3 (epoch + 1) ++ ".pth") epoch
         (ext.modelState epoch) (ext.optState epoch), Event.cleanupDir] else []) := by
  unfold periodicCheckpoint at h
  split at h
  · cases h
  · next hf =>
    refine ⟨hf, ?_⟩
    split at h <;> split <;> simp_all

/-- Decomposition of one successful loop iteration into its stages and the
shape of its event trace. -/
theorem runEpoch_ok_elim (c : Config) (ext : Externals) (st : LoopState) (epoch : ℕ)
    (st2 : LoopState) (evs : List Event) (brk : Bool)
    (h : runEpoch c ext st epoch = Except.ok (st2, evs, brk)) :
    ∃ schedEv bestEvs perEvs,
      schedStepEvent c (afterPhases c ext st epoch) epoch = Except.ok schedEv ∧
      bestCheckpoint c ext (afterPhases c ext st epoch) epoch = Except.ok (st2, bestEvs) ∧
      periodicCheckpoint c ext epoch = Except.ok perEvs ∧
      brk = breakFlag c st2 epoch ∧
      evs = (phasesOf c).map (fun p => Event.runPhase p epoch) ++
        schedEv :: (bestEvs ++ perEvs ++ (if brk then [Event.earlyStop epoch] else [])) := by
  simp only [runEpoch] at h
  rcases hs : schedStepEvent c (afterPhases c ext st epoch) epoch with s | schedEv
  · simp only [hs] at h
    exact Except.noConfusion h
  · simp only [hs] at h
    rcases hb : bestCheckpoint c ext (afterPhases c ext st epoch) epoch with s | ⟨st2x, bestEvs⟩
    · simp only [hb] at h
      exact Except.noConfusion h
    · simp only [hb] at h
      rcases hp : periodicCheckpoint c ext epoch with s | perEvs
      · simp only [hp] at h
        exact Except.noConfusion h
      · simp only [hp] at h
        simp only [Except.ok.injEq, Prod.mk.injEq] at h
        obtain ⟨h1, h2, h3⟩ := h
        subst h1
        subst h3
        exact ⟨schedEv, bestEvs, perEvs, rfl, rfl, rfl, rfl, h2.symm⟩

/-- Every event of a successful run of the loop body over a list of epochs is
produced by a successful iteration at one of those epochs. -/
theorem runEpochs_mem_elim (c : Config) (ext : Externals) :
    ∀ (es : List ℕ) (st : LoopState) (evs : List Event) (stF : LoopState),
      runEpochs c ext es st = Except.ok (evs, stF) →
      ∀ ev ∈ evs, ∃ e st0 st1 evs0 brk, e ∈ es ∧
        runEpoch c ext st0 e = Except.ok (st1, evs0, brk) ∧ ev ∈ evs0 := by
  intro es
  induction es with
  | nil =>
    intro st evs stF h ev hev
    simp only [runEpochs, Except.ok.injEq, Prod.mk.injEq] at h
    rw [← h.1] at hev
    exact absurd hev (List.not_mem_nil ev)
  | cons e rest ih =>
    intro st evs stF h ev hev
    simp only [runEpochs] at h
    rcases hr : runEpoch c ext st e with s | ⟨st2, evs1, brk⟩
    · simp only [hr] at h
      exact Except.noConfusion h
    · simp only [hr] at h
      by_cases hb : brk = true
    
      · rw [if_pos hb] at h
        simp only [Except.ok.injEq, Prod.mk.injEq] at h
        rw [← h.1] at hev
        exact ⟨e, st, st2, evs1, brk, List.mem_cons_self e rest, hr, hev⟩
      · rw [if_neg hb] at h
        rcases h2 : runEpochs c ext rest st2 with s | ⟨evs2, st3⟩
        · simp only [h2] at h
          exact Except.noConfusion h
        · simp only [h2] at h
          simp only [Except.ok.injEq, Prod.mk.injEq] at h
          rw [← h.1] at hev
          rcases List.mem_append.1 hev with h3 | h3
          · exact ⟨e, st, st2, evs1, brk, List.mem_cons_self e rest, hr, h3⟩
          · obtain ⟨e1, st0, st1, evs0, brk0, hmem, hre, hin⟩ := ih st2 evs2 st3 h2 ev h3
            exact ⟨e1, st0, st1, evs0, brk0, List.mem_cons_of_mem e hmem, hre, hin⟩

/-- A failing run of the loop body fails inside one of its iterations, with
the same error. -/
theorem runEpochs_error_elim (c : Config) (ext : Externals) :
    ∀ (es : List ℕ) (st : LoopState) (s : String),
      runEpochs c ext es st = Except.error s →
      ∃ e st0, e ∈ es ∧ runEpoch c ext st0 e = Except.error s := by
  intro es
  induction es with
  | nil =>
    intro st s h
    exact Except.noConfusion h
  | cons e rest ih =>
    intro st s h
    simp only [runEpochs] at h
    rcases hr : runEpoch c ext st e with s1 | ⟨st2, evs1, brk⟩
    · simp only [hr] at h
      exact ⟨e, st, List.mem_cons_self e rest, by rw [hr, Except.error.inj h]⟩
    · simp only [hr] at h
      by_cases hb : brk = true
      · rw [if_pos hb] at h
        exact Except.noConfusion h
      · rw [if_neg hb] at h
        rcases h2 : runEpochs c ext rest st2 with s2 | ⟨evs2, st3⟩
        · simp only [h2] at h
          obtain ⟨e1, st0, hmem, hre⟩ := ih st2 s2 h2
          exact ⟨e1, st0, List.mem_cons_of_mem e hmem, by rw [hre, Except.error.inj h]⟩
        · simp only [h2] at h
          exact Except.noConfusion h

/-- A single decimal digit character is a digit. -/
theorem digitChar_isDigit : ∀ d : ℕ, d < 10 → (Nat.digitChar d).isDigit = true := by decide

/-- All characters produced by the decimal digit accumulator are digits,
provided the accumulator starts from digits. -/
theorem toDigitsCore_isDigit :
    ∀ (fuel n : ℕ) (ds : List Char), (∀ ch ∈ ds, ch.isDigit = true) →
      ∀ ch ∈ Nat.toDigitsCore 10 fuel n ds, ch.isDigit = true := by
  intro fuel
  induction fuel with
  | zero =>
    intro n ds hds ch hch
    exact hds ch hch
  | succ f ih =>
    intro n ds hds ch hch
    simp only [Nat.toDigitsCore] at hch
    have hcons : ∀ ch2 ∈ Nat.digitChar (n % 10) :: ds, ch2.isDigit = true := by
      intro ch2 hch2
      rcases List.mem_cons.1 hch2 with h2 | h2
      · rw [h2]
        exact digitChar_isDigit (n % 10) (Nat.mod_lt n (by norm_num))
      · exact hds ch2 h2
    split at hch
    · exact hcons ch hch
    · exact ih (n / 10) (Nat.digitChar (n % 10) :: ds) hcons ch hch

/-- All characters of the decimal representation of a natural number are
digits. -/
theorem repr_isDigit (n : ℕ) : ∀ ch ∈ (Nat.repr n).data, ch.isDigit = true := by
  intro ch hch
  refine toDigitsCore_isDigit (n + 1) n [] ?_ ch ?_
  · intro ch2 hch2
    exact absurd hch2 (List.not_mem_nil ch2)
  · simpa [Nat.repr, Nat.toDigits, List.asString] using hch

/-- All characters of the zero-padded decimal representation are digits. -/
theorem zeroPad3_isDigit (n : ℕ) : ∀ ch ∈ (zeroPad3 n).data, ch.isDigit = true := by
  intro ch hch
  simp only [zeroPad3] at hch
  split at hch
  · rw [String.data_append] at hch
    rcases List.mem_append.1 hch with h2 | h2
    · have : ch = '0' := List.eq_of_mem_replicate h2
      rw [this]
      decide
    · exact repr_isDigit n ch h2
  · exact repr_isDigit n ch hch

/-- The periodic checkpoint path is never the best checkpoint path: its sixth
character is a digit, not the letter b. -/
theorem periodicPath_ne_best (n : ℕ) :
    ("save_" ++ zeroPad3 n ++ ".pth" : String) ≠ "save_best.pth" := by
  intro h
  have hd := congrArg String.data h
  rw [String.data_append, String.data_append] at hd
  have hsave : ("save_" : String).data = ['s', 'a', 'v', 'e', '_'] := rfl
  have hpth : ((".pth" : String)).data = ['.', 'p', 't', 'h'] := rfl
  have hbest : (("save_best.pth" : String)).data =
      ['s', 'a', 'v', 'e', '_', 'b', 'e', 's', 't', '.', 'p', 't', 'h'] := rfl
  rw [hsave, hpth, hbest] at hd
  have hd2 : (zeroPad3 n).data ++ ['.', 'p', 't', 'h'] =
      ['b', 'e', 's', 't', '.', 'p', 't', 'h'] := by
    simpa using hd
  rcases hz : (zeroPad3 n).data with _ | ⟨c0, rest⟩
  · rw [hz] at hd2
    exact absurd hd2 (by decide)
  · rw [hz] at hd2
    injection hd2 with h1 h2
    have hdig : c0.isDigit = true := zeroPad3_isDigit n c0 (by rw [hz]; exact List.mem_cons_self c0 rest)
    rw [h1] at hdig
    exact absurd hdig (by decide)

/-- Refined shape of the trace of one successful loop iteration. -/
theorem runEpoch_trace (c : Config) (ext : Externals) (st : LoopState) (epoch : ℕ)
    (st2 : LoopState) (evs : List Event) (brk : Bool)
    (h : runEpoch c ext st epoch = Except.ok (st2, evs, brk)) :
    ∃ arg bestEvs perEvs,
      evs = (phasesOf c).map (fun p => Event.runPhase p epoch) ++
        Event.schedStep arg ::
          (bestEvs ++ perEvs ++ (if brk then [Event.earlyStop epoch] else [])) ∧
      brk = breakFlag c st2 epoch ∧
      ((c.lr_scheduler = "plateau" ∧ ∃ l, (afterPhases c ext st epoch).val_loss = some l ∧
          arg = SchedArg.valLoss l) ∨
        (c.lr_scheduler ≠ "plateau" ∧ arg = SchedArg.epochIdx epoch)) ∧
      (bestEvs = [] ∨ bestEvs = [Event.saveCheckpoint "save_best.pth" epoch
          (ext.modelState epoch) (ext.optState epoch)]) ∧
      (perEvs = if epoch % c.checkpoint_frequency = 0 then
          [Event.saveCheckpoint ("save_" ++ zeroPad3 (epoch + 1) ++ ".pth") epoch
            (ext.modelState epoch) (ext.optState epoch), Event.cleanupDir] else []) ∧
      c.checkpoint_frequency ≠ 0 := by
  obtain ⟨schedEv, bestEvs, perEvs, hs, hb, hp, hbrk, hevs⟩ :=
    runEpoch_ok_elim c ext st epoch st2 evs brk h
  have hsc := schedStepEvent_ok c (afterPhases c ext st epoch) epoch schedEv hs
  have hbc := bestCheckpoint_ok c ext (afterPhases c ext st epoch) epoch st2 bestEvs hb
  have hpc := periodicCheckpoint_ok c ext epoch perEvs hp
  obtain ⟨arg, harg, hargSpec⟩ :
      ∃ arg, schedEv = Event.schedStep arg ∧
        ((c.lr_scheduler = "plateau" ∧ ∃ l, (afterPhases c ext st epoch).val_loss = some l ∧
            arg = SchedArg.valLoss l) ∨
          (c.lr_scheduler ≠ "plateau" ∧ arg = SchedArg.epochIdx epoch)) := by
    rcases hsc with ⟨h1, l, h2, h3⟩ | ⟨h1, h2⟩
    · exact ⟨SchedArg.valLoss l, h3, Or.inl ⟨h1, l, h2, rfl⟩⟩
    · exact ⟨SchedArg.epochIdx epoch, h2, Or.inr ⟨h1, rfl⟩⟩
  subst harg
  refine ⟨arg, bestEvs, perEvs, hevs, hbrk, hargSpec, ?_, hpc.2, hpc.1⟩
  rcases hbc with ⟨_, a, _, ⟨_, _, h2⟩ | ⟨_, _, h2⟩⟩ | ⟨_, _, h2⟩
  · exact Or.inr h2
  · exact Or.inl h2
  · exact Or.inl h2

/-- Distribution of an extraction over a conditional trace. -/
theorem filterMap_ite {α β : Type} (f : α → Option β) (P : Prop) [Decidable P]
    (l1 l2 : List α) :
    List.filterMap f (if P then l1 else l2) =
      if P then List.filterMap f l1 else List.filterMap f l2 := by
  split <;> rfl

/-- One successful iteration executes the training phase exactly once. -/
theorem runEpoch_trainRuns (c : Config) (ext : Externals) (st : LoopState) (epoch : ℕ)
    (st2 : LoopState) (evs : List Event) (brk : Bool)
    (h : runEpoch c ext st epoch = Except.ok (st2, evs, brk)) :
    trainRunsOf evs = [epoch] := by
  obtain ⟨arg, bestEvs, perEvs, hevs, _, _, hbest, hper, _⟩ :=
    runEpoch_trace c ext st epoch st2 evs brk h
  subst hevs
  subst hper
  rcases hbest with hb | hb <;> subst hb <;>
    cases hV : c.hasValidation <;>
      simp [trainRunsOf, phasesOf, hV, filterMap_ite]

/-- One successful iteration records an early stop exactly when it breaks. -/
theorem runEpoch_earlyStops (c : Config) (ext : Externals) (st : LoopState) (epoch : ℕ)
    (st2 : LoopState) (evs : List Event) (brk : Bool)
    (h : runEpoch c ext st epoch = Except.ok (st2, evs, brk)) :
    earlyStopsOf evs = if brk then [epoch] else [] := by
  obtain ⟨arg, bestEvs, perEvs, hevs, _, _, hbest, hper, _⟩ :=
    runEpoch_trace c ext st epoch st2 evs brk h
  subst hevs
  subst hper
  rcases hbest with hb | hb <;> subst hb <;>
    cases hV : c.hasValidation <;> cases brk <;>
      simp [earlyStopsOf, phasesOf, hV, filterMap_ite]

/-- One successful iteration steps the scheduler exactly once, with the
argument selected by the scheduler policy. -/
theorem runEpoch_schedSteps (c : Config) (ext : Externals) (st : LoopState) (epoch : ℕ)
    (st2 : LoopState) (evs : List Event) (brk : Bool)
    (h : runEpoch c ext st epoch = Except.ok (st2, evs, brk)) :
    ∃ arg, schedStepsOf evs = [arg] ∧
      ((c.lr_scheduler = "plateau" ∧ ∃ l, (afterPhases c ext st epoch).val_loss = some l ∧
          arg = SchedArg.valLoss l) ∨
        (c.lr_scheduler ≠ "plateau" ∧ arg = SchedArg.epochIdx epoch)) := by
  obtain ⟨arg, bestEvs, perEvs, hevs, _, hargSpec, hbest, hper, _⟩ :=
    runEpoch_trace c ext st epoch st2 evs brk h
  subst hevs
  subst hper
  refine ⟨arg, ?_, hargSpec⟩
  rcases hbest with hb | hb <;> subst hb <;>
    cases hV : c.hasValidation <;> cases brk <;>
      simp [schedStepsOf, phasesOf, hV, filterMap_ite]

/-- Every checkpoint write of one successful iteration carries the iteration
epoch together with the model state and the optimizer state of that epoch,
and its path is either the best path or the periodic path of the epoch. -/
theorem runEpoch_saves (c : Config) (ext : Externals) (st : LoopState) (epoch : ℕ)
    (st2 : LoopState) (evs : List Event) (brk : Bool)
    (h : runEpoch c ext st epoch = Except.ok (st2, evs, brk)) :
    ∀ p n m o, Event.saveCheckpoint p n m o ∈ evs →
      n = epoch ∧ m = ext.modelState epoch ∧ o = ext.optState epoch ∧
      (p = "save_best.pth" ∨
        (p = "save_" ++ zeroPad3 (epoch + 1) ++ ".pth" ∧ epoch % c.checkpoint_frequency = 0)) := by
  obtain ⟨arg, bestEvs, perEvs, hevs, _, _, hbest, hper, _⟩ :=
    runEpoch_trace c ext st epoch st2 evs brk h
  subst hevs
  subst hper
  intro p n m o hmem
  rcases hbest with hb | hb <;> subst hb <;>
    cases hV : c.hasValidation <;> cases brk <;>
      by_cases hm : epoch % c.checkpoint_frequency = 0 <;>
        simp [phasesOf, hV, hm] at hmem <;>
        aesop

/-- C4: in every successful iteration of the epoch loop the phases run in a
fixed order: the training phase first, and the validation phase after it if
and only if a validation data loader is present in data_loaders; when it is
absent only the training phase runs. -/
theorem phase_order (c : Config) (ext : Externals) (st : LoopState) (epoch : ℕ)
    (st2 : LoopState) (evs : List Event) (brk : Bool)
    (h : runEpoch c ext st epoch = Except.ok (st2, evs, brk)) :
    phaseRunsOf evs = if c.hasValidation then [("train", epoch), ("validation", epoch)]
      else [("train", epoch)] := by
  obtain ⟨arg, bestEvs, perEvs, hevs, _, _, hbest, hper, _⟩ :=
    runEpoch_trace c ext st epoch st2 evs brk h
  subst hevs
  subst hper
  rcases hbest with hb | hb <;> subst hb <;>
    cases hV : c.hasValidation <;>
      simp [phaseRunsOf, phasesOf, hV, filterMap_ite]

/-- C3: every successful iteration steps the learning-rate scheduler exactly
once, with the validation loss of the epoch when the configured policy is
plateau and with the epoch index otherwise.  The hypothesis `hpl` is the
guarantee established by the assertion of lines 107-109. -/
theorem scheduler_step_policy (c : Config) (ext : Externals) (st : LoopState) (epoch : ℕ)
    (st2 : LoopState) (evs : List Event) (brk : Bool)
    (hpl : c.lr_scheduler = "plateau" → c.hasValidation = true)
    (h : runEpoch c ext st epoch = Except.ok (st2, evs, brk)) :
    schedStepsOf evs =
      [if c.lr_scheduler = "plateau" then SchedArg.valLoss (ext.valLoss epoch)
        else SchedArg.epochIdx epoch] := by
  obtain ⟨arg, hlist, hspec⟩ := runEpoch_schedSteps c ext st epoch st2 evs brk h
  rw [hlist]
  rcases hspec with ⟨h1, l, h2, h3⟩ | ⟨h1, h3⟩
  · rw [if_pos h1]
    have hV := hpl h1
    simp only [afterPhases, hV, if_true, Option.some.injEq] at h2
    rw [h3, ← h2]
  · rw [if_neg h1, h3]

/-- C5: a successful iteration writes a periodic checkpoint exactly when the
epoch index is a multiple of checkpoint_frequency; the write is immediately
followed by the pruning of the checkpoint directory, and in the other epochs
the only checkpoint writes are best checkpoints. -/
theorem periodic_checkpoint_spec (c : Config) (ext : Externals) (st : LoopState) (epoch : ℕ)
    (st2 : LoopState) (evs : List Event) (brk : Bool)
    (h : runEpoch c ext st epoch = Except.ok (st2, evs, brk)) :
    (Event.cleanupDir ∈ evs ↔ epoch % c.checkpoint_frequency = 0) ∧
    (epoch % c.checkpoint_frequency = 0 →
      ∃ pre post, evs = pre ++ Event.saveCheckpoint ("save_" ++ zeroPad3 (epoch + 1) ++ ".pth")
        epoch (ext.modelState epoch) (ext.optState epoch) :: Event.cleanupDir :: post) ∧
    (¬ epoch % c.checkpoint_frequency = 0 →
      ∀ p n m o, Event.saveCheckpoint p n m o ∈ evs → p = "save_best.pth") := by
  obtain ⟨arg, bestEvs, perEvs, hevs, hbrk, hspec, hbest, hper, hf⟩ :=
    runEpoch_trace c ext st epoch st2 evs brk h
  refine ⟨?_, ?_, ?_⟩
  · subst hevs
    subst hper
    rcases hbest with hb | hb <;> subst hb <;> cases brk <;>
      by_cases hm : epoch % c.checkpoint_frequency = 0 <;>
        simp [hm]
  · intro hm
    refine ⟨(phasesOf c).map (fun p => Event.runPhase p epoch) ++ Event.schedStep arg :: bestEvs,
      (if brk then [Event.earlyStop epoch] else []), ?_⟩
    subst hevs
    subst hper
    simp [hm, List.append_assoc]
  · intro hm p n m o hmem
    obtain ⟨_, _, _, hpath⟩ := runEpoch_saves c ext st epoch st2 evs brk h p n m o hmem
    rcases hpath with h1 | ⟨h1, h2⟩
    · exact h1
    · exact absurd h2 hm

/-- C10: in a successful iteration every checkpoint write is either the best
checkpoint, whose fixed path save_best.pth contains no digit at all, or the
periodic checkpoint, whose path save_NNN.pth uses the stored epoch number
plus one, zero padded to width 3, so the filename number and the stored
epoch field differ by exactly one. -/
theorem checkpoint_filename_offset (c : Config) (ext : Externals) (st : LoopState) (epoch : ℕ)
    (st2 : LoopState) (evs : List Event) (brk : Bool)
    (h : runEpoch c ext st epoch = Except.ok (st2, evs, brk)) :
    (∀ p n m o, Event.saveCheckpoint p n m o ∈ evs →
      p = "save_best.pth" ∨ (p = "save_" ++ zeroPad3 (n + 1) ++ ".pth" ∧ n = epoch)) ∧
    ∀ ch ∈ ("save_best.pth" : String).data, ch.isDigit = false := by
  constructor
  · intro p n m o hmem
    obtain ⟨hn, _, _, hpath⟩ := runEpoch_saves c ext st epoch st2 evs brk h p n m o hmem
    rcases hpath with h1 | ⟨h1, _⟩
    · exact Or.inl h1
    · subst hn
      exact Or.inr ⟨h1, rfl⟩
  · decide

/-- C2: in every successful iteration with a validation phase the best
checkpoint save_best.pth is written if and only if the validation accuracy
of the epoch strictly exceeds the best value seen so far, which starts at
zero; in that case best_val_acc becomes the new accuracy, and otherwise it
is unchanged. -/
theorem best_checkpoint_iff (c : Config) (ext : Externals) (st : LoopState) (epoch : ℕ)
    (st2 : LoopState) (evs : List Event) (brk : Bool)
    (hV : c.hasValidation = true)
    (h : runEpoch c ext st epoch = Except.ok (st2, evs, brk)) :
    initLoopState.best_val_acc = 0 ∧
    (bestSavesOf evs = if st.best_val_acc < ext.valAcc epoch then
        [(epoch, ext.modelState epoch, ext.optState epoch)] else []) ∧
    (st2.best_val_acc = if st.best_val_acc < ext.valAcc epoch then ext.valAcc epoch
        else st.best_val_acc) := by
  obtain ⟨schedEv, bestEvs, perEvs, hs, hb, hp, hbrk, hevs⟩ :=
    runEpoch_ok_elim c ext st epoch st2 evs brk h
  have hper := (periodicCheckpoint_ok c ext epoch perEvs hp).2
  obtain ⟨arg, harg⟩ : ∃ arg, schedEv = Event.schedStep arg := by
    rcases schedStepEvent_ok c (afterPhases c ext st epoch) epoch schedEv hs with
      ⟨_, l, _, h2⟩ | ⟨_, h2⟩
    · exact ⟨_, h2⟩
    · exact ⟨_, h2⟩
  simp only [bestCheckpoint, afterPhases, hV, if_true] at hb
  subst hevs
  subst hper
  subst harg
  split at hb <;> obtain ⟨h1, h2⟩ := Prod.mk.inj (Except.ok.inj hb)
  · next hlt =>
    refine ⟨rfl, ?_, ?_⟩
    · rw [← h2, if_pos hlt]
      by_cases hm : epoch % c.checkpoint_frequency = 0 <;> cases brk <;>
        simp [bestSavesOf, phasesOf, hV, hm, periodicPath_ne_best (epoch + 1)]
    · rw [← h1, if_pos hlt]
  · next hlt =>
    refine ⟨rfl, ?_, ?_⟩
    · rw [← h2, if_neg hlt]
      by_cases hm : epoch % c.checkpoint_frequency = 0 <;> cases brk <;>
        simp [bestSavesOf, phasesOf, hV, hm, periodicPath_ne_best (epoch + 1)]
    · rw [← h1, if_neg hlt]

/-- Modelled from the claim wording for the early-stopping condition: the
loop is said to stop exactly when the epoch index exceeds the patience and
each of the last `early_stopping_patience` recorded validation accuracies is
strictly below the best accuracy; the last `k` elements of a list `l` are
`l.drop (l.length - k)`, the empty list when `k = 0`.  The code instead
evaluates the Python slice `val_acc_history[-k:]`, which is the whole
history when `k = 0`. -/
def claimStopCond (c : Config) (st2 : LoopState) (epoch : ℕ) : Bool :=
  decide (c.early_stopping_patience < epoch) &&
    (st2.val_acc_history.drop (st2.val_acc_history.length - c.early_stopping_patience)).all
      (fun a => decide (a < st2.best_val_acc))

/-- Configuration exhibiting the divergence at patience zero. -/
def cexConfig : Config :=
  { start_epoch := 1, num_epochs := 2, checkpoint_frequency := 1,
    early_stopping_patience := 0, lr_scheduler := "milestones", hasValidation := true }

/-- External results exhibiting the divergence at patience zero: the
validation accuracy of every epoch is 1. -/
def cexExternals : Externals :=
  { trainLoss := fun _ => 1, trainAcc := fun _ => 1, valLoss := fun _ => 1,
    valAcc := fun _ => 1, modelState := fun e => e, optState := fun e => e }

/-- C1 counterexample: with early_stopping_patience 0 the iteration at epoch
1 does not break (the Python slice with index -0 is the whole history, whose
single element equals the best accuracy), although the condition claimed for
early stopping holds there (the empty set of last 0 accuracies is vacuously
below the best while 1 exceeds the patience 0). -/
theorem early_stopping_patience_zero_cex :
    Except.map (fun r => (r.2.2, claimStopCond cexConfig r.1 1))
      (runEpoch cexConfig cexExternals initLoopState 1) = Except.ok (false, true) := by
  rfl

/-- C1 amended: for every configuration with a validation phase and an
early-stopping patience of at least one, a successful iteration breaks out
of the loop exactly when the epoch index exceeds the patience and each of
the last `early_stopping_patience` recorded validation accuracies is
strictly below the best validation accuracy seen so far. -/
theorem early_stopping_break_iff (c : Config) (ext : Externals) (st : LoopState) (epoch : ℕ)
    (st2 : LoopState) (evs : List Event) (brk : Bool)
    (hV : c.hasValidation = true) (hp : 1 ≤ c.early_stopping_patience)
    (h : runEpoch c ext st epoch = Except.ok (st2, evs, brk)) :
    brk = true ↔ (c.early_stopping_patience < epoch ∧
      ∀ a ∈ st2.val_acc_history.drop (st2.val_acc_history.length - c.early_stopping_patience),
        a < st2.best_val_acc) := by
  obtain ⟨arg, bestEvs, perEvs, hevs, hbrk, _, _, _, _⟩ :=
    runEpoch_trace c ext st epoch st2 evs brk h
  subst hbrk
  unfold breakFlag lastSlice
  rw [if_neg (by omega : ¬ c.early_stopping_patience = 0)]
  simp [List.all_eq_true]

/-- Unfolding of the whole run to the epoch loop once the assertion of
lines 107-109 passes. -/
theorem runTrain_ok_elim (c : Config) (ext : Externals) (evs : List Event) (stF : LoopState)
    (h : runTrain c ext = Except.ok (evs, stF)) :
    runEpochs c ext (epochRange c) initLoopState = Except.ok (evs, stF) := by
  unfold runTrain at h
  split at h
  · exact Except.noConfusion h
  · exact h

/-- C6: in every successful run, every checkpoint write, best or periodic,
stores through the one save_checkpoint entry point an epoch number together
with the model state and the optimizer state belonging to that same epoch;
no checkpoint pairs the model state of one moment with the optimizer state
of another. -/
theorem checkpoint_atomic_state (c : Config) (ext : Externals)
    (evs : List Event) (stF : LoopState)
    (h : runTrain c ext = Except.ok (evs, stF)) :
    ∀ p n m o, Event.saveCheckpoint p n m o ∈ evs →
      m = ext.modelState n ∧ o = ext.optState n := by
  intro p n m o hmem
  obtain ⟨e, st0, st1, evs0, brk, hmemE, hre, hin⟩ :=
    runEpochs_mem_elim c ext (epochRange c) initLoopState evs stF
      (runTrain_ok_elim c ext evs stF h) _ hmem
  obtain ⟨hn, hm2, ho, _⟩ := runEpoch_saves c ext st0 e st1 evs0 brk hre p n m o hin
  subst hn
  exact ⟨hm2, ho⟩

/-- The training phases of a successful run of the loop over a range of
epochs form an initial segment of that range. -/
theorem runEpochs_range_trainRuns (c : Config) (ext : Externals) :
    ∀ (n s : ℕ) (st : LoopState) (evs : List Event) (stF : LoopState),
      runEpochs c ext (List.range' s n) st = Except.ok (evs, stF) →
      ∃ k, k ≤ n ∧ trainRunsOf evs = List.range' s k := by
  intro n
  induction n with
  | zero =>
    intro s st evs stF h
    simp only [List.range', runEpochs, Except.ok.injEq, Prod.mk.injEq] at h
    exact ⟨0, Nat.le_refl 0, by rw [← h.1]; rfl⟩
  | succ nn ih =>
    intro s st evs stF h
    rw [List.range'_succ] at h
    simp only [runEpochs] at h
    rcases hr : runEpoch c ext st s with s1 | ⟨st2, evs1, brk⟩
    · simp only [hr] at h
      exact Except.noConfusion h
    · simp only [hr] at h
      have htr := runEpoch_trainRuns c ext st s st2 evs1 brk hr
      by_cases hb : brk = true
      · rw [if_pos hb] at h
        obtain ⟨h1, h2⟩ := Prod.mk.inj (Except.ok.inj h)
        refine ⟨1, by omega, ?_⟩
        rw [← h1, htr]
        rfl
      · rw [if_neg hb] at h
        rcases h2 : runEpochs c ext (List.range' (s + 1) nn) st2 with s2 | ⟨evs2, st3⟩
        · simp only [h2] at h
          exact Except.noConfusion h
        · simp only [h2] at h
          obtain ⟨h3, h4⟩ := Prod.mk.inj (Except.ok.inj h)
          obtain ⟨k, hk, htr2⟩ := ih (s + 1) st2 evs2 st3 h2
          refine ⟨k + 1, by omega, ?_⟩
          have hdist : trainRunsOf (evs1 ++ evs2) = trainRunsOf evs1 ++ trainRunsOf evs2 := by
            simp [trainRunsOf]
          rw [← h3, hdist, htr, htr2, List.range'_succ]
          rfl

/-- C7: over a successful run the epoch counter is monotone: the epochs
whose training phase ran form the contiguous segment starting at
config.start_epoch and stepping by one, and none of them exceeds
config.num_epochs. -/
theorem epoch_counter_monotone (c : Config) (ext : Externals)
    (evs : List Event) (stF : LoopState)
    (h : runTrain c ext = Except.ok (evs, stF)) :
    ∃ k, trainRunsOf evs = List.range' c.start_epoch k ∧
      ∀ e ∈ trainRunsOf evs, e ≤ c.num_epochs := by
  obtain ⟨k, hk, htr⟩ := runEpochs_range_trainRuns c ext (c.num_epochs + 1 - c.start_epoch)
    c.start_epoch initLoopState evs stF (runTrain_ok_elim c ext evs stF h)
  refine ⟨k, htr, ?_⟩
  intro e he
  rw [htr] at he
  obtain ⟨i, hi, hei⟩ := List.mem_range'.1 he
  omega

/-- The scheduler step succeeds whenever the policy is not plateau or the
validation loss is bound. -/
theorem schedStepEvent_total (c : Config) (st1 : LoopState) (epoch : ℕ)
    (hcase : c.lr_scheduler = "plateau" → st1.val_loss.isSome) :
    ∃ ev, schedStepEvent c st1 epoch = Except.ok ev := by
  unfold schedStepEvent
  split
  · next hpl =>
    obtain ⟨l, hl⟩ := Option.isSome_iff_exists.1 (hcase hpl)
    rw [hl]
    exact ⟨_, rfl⟩
  · exact ⟨_, rfl⟩

/-- The best-checkpoint branch succeeds whenever validation is absent or the
validation accuracy is bound. -/
theorem bestCheckpoint_total (c : Config) (ext : Externals) (st1 : LoopState) (epoch : ℕ)
    (hcase : c.hasValidation = true → st1.val_acc.isSome) :
    ∃ pr, bestCheckpoint c ext st1 epoch = Except.ok pr := by
  unfold bestCheckpoint
  split
  · next hv =>
    obtain ⟨a, ha⟩ := Option.isSome_iff_exists.1 (hcase hv)
    simp only [ha]
    split
    · exact ⟨_, rfl⟩
    · exact ⟨_, rfl⟩
  · exact ⟨_, rfl⟩

/-- The periodic-checkpoint branch can only fail with ZeroDivisionError. -/
theorem periodicCheckpoint_error (c : Config) (ext : Externals) (epoch : ℕ) (s : String)
    (h : periodicCheckpoint c ext epoch = Except.error s) :
    s = "ZeroDivisionError" := by
  unfold periodicCheckpoint at h
  split at h
  · exact (Except.error.inj h).symm
  · split at h <;> exact Except.noConfusion h

/-- A failing iteration, when a validation phase is configured or the policy
is not plateau, can only fail with ZeroDivisionError. -/
theorem runEpoch_error_zdiv (c : Config) (ext : Externals) (st : LoopState) (epoch : ℕ)
    (s : String)
    (hcase : c.hasValidation = true ∨ c.lr_scheduler ≠ "plateau")
    (h : runEpoch c ext st epoch = Except.error s) :
    s = "ZeroDivisionError" := by
  have hloss : c.lr_scheduler = "plateau" → (afterPhases c ext st epoch).val_loss.isSome := by
    intro hpl
    rcases hcase with hV | hne
    · simp [afterPhases, hV]
    · exact absurd hpl hne
  have hacc : c.hasValidation = true → (afterPhases c ext st epoch).val_acc.isSome := by
    intro hV
    simp [afterPhases, hV]
  obtain ⟨ev, hok1⟩ := schedStepEvent_total c (afterPhases c ext st epoch) epoch hloss
  obtain ⟨⟨st2, bestEvs⟩, hok2⟩ := bestCheckpoint_total c ext (afterPhases c ext st epoch) epoch hacc
  simp only [runEpoch, hok1, hok2] at h
  rcases hp : periodicCheckpoint c ext epoch with s2 | perEvs
  · simp only [hp] at h
    rw [← Except.error.inj h]
    exact periodicCheckpoint_error c ext epoch s2 hp
  · simp only [hp] at h
    exact Except.noConfusion h

/-- C8: the plateau policy requires a configured validation phase.  When the
policy is plateau but validation is absent the run stops at the assertion of
lines 107-109; under plateau a run can only fail at that assertion or on a
zero checkpoint frequency, never on an unbound val_loss; every successful
plateau run has a validation phase and passed a validation loss to every
scheduler step; with any other policy the assertion never fires. -/
theorem plateau_requires_validation (c : Config) (ext : Externals) :
    (c.lr_scheduler = "plateau" → c.hasValidation = false →
      runTrain c ext = Except.error "AssertionError") ∧
    (∀ s, c.lr_scheduler = "plateau" → runTrain c ext = Except.error s →
      s = "AssertionError" ∨ s = "ZeroDivisionError") ∧
    (c.lr_scheduler ≠ "plateau" → runTrain c ext ≠ Except.error "AssertionError") ∧
    (∀ evs stF, c.lr_scheduler = "plateau" → runTrain c ext = Except.ok (evs, stF) →
      c.hasValidation = true ∧ ∀ arg ∈ schedStepsOf evs, ∃ l, arg = SchedArg.valLoss l) := by
  refine ⟨?_, ?_, ?_, ?_⟩
  · intro hpl hV
    unfold runTrain
    rw [if_pos ⟨hpl, hV⟩]
  · intro s hpl h
    unfold runTrain at h
    split at h
    · exact Or.inl (Except.error.inj h).symm
    · next hcond =>
      have hV : c.hasValidation = true := by
        by_contra hfalse
        exact hcond ⟨hpl, by simpa using hfalse⟩
      obtain ⟨e, st0, hmem, herr⟩ := runEpochs_error_elim c ext (epochRange c) initLoopState s h
      exact Or.inr (runEpoch_error_zdiv c ext st0 e s (Or.inl hV) herr)
  · intro hne h
    unfold runTrain at h
    split at h
    · next hcond =>
      exact hne hcond.1
    · obtain ⟨e, st0, hmem, herr⟩ := runEpochs_error_elim c ext (epochRange c) initLoopState _ h
      have hz := runEpoch_error_zdiv c ext st0 e _ (Or.inr hne) herr
      exact absurd hz (by decide)
  · intro evs stF hpl h
    have hV : c.hasValidation = true := by
      by_contra hfalse
      unfold runTrain at h
      rw [if_pos ⟨hpl, by simpa using hfalse⟩] at h
      exact Except.noConfusion h
    refine ⟨hV, ?_⟩
    intro arg hargmem
    unfold schedStepsOf at hargmem
    obtain ⟨ev, hev, hfa⟩ := List.mem_filterMap.1 hargmem
    have harg : ev = Event.schedStep arg := by
      cases ev <;> simp at hfa
      rw [hfa]
    subst harg
    obtain ⟨e, st0, st1, evs0, brk, hmemE, hre, hin⟩ :=
      runEpochs_mem_elim c ext (epochRange c) initLoopState evs stF
        (runTrain_ok_elim c ext evs stF h) _ hev
    obtain ⟨arg0, hlist, hspec⟩ := runEpoch_schedSteps c ext st0 e st1 evs0 brk hre
    have hmem0 : arg ∈ schedStepsOf evs0 := by
      unfold schedStepsOf
      exact List.mem_filterMap.2 ⟨Event.schedStep arg, hin, rfl⟩
    rw [hlist] at hmem0
    have harg0 : arg = arg0 := List.mem_singleton.1 hmem0
    rcases hspec with ⟨_, l, _, h3⟩ | ⟨h1, _⟩
    · exact ⟨l, by rw [harg0, h3]⟩
    · exact absurd hpl h1

/-- An iteration without a validation phase, with a policy other than
plateau and a nonzero frequency, never fails and never changes the loop
state. -/
theorem runEpoch_noval_ok (c : Config) (ext : Externals) (st : LoopState) (epoch : ℕ)
    (hV : c.hasValidation = false) (hpl : c.lr_scheduler ≠ "plateau")
    (hf : c.checkpoint_frequency ≠ 0) :
    ∃ evs, runEpoch c ext st epoch = Except.ok (st, evs, breakFlag c st epoch) := by
  have h2 : afterPhases c ext st epoch = st := by simp [afterPhases, hV]
  have h1 : schedStepEvent c st epoch = Except.ok (Event.schedStep (SchedArg.epochIdx epoch)) := by
    simp [schedStepEvent, hpl]
  have h3 : bestCheckpoint c ext st epoch = Except.ok (st, []) := by
    simp [bestCheckpoint, hV]
  have h4 : periodicCheckpoint c ext epoch = Except.ok
      (if epoch % c.checkpoint_frequency = 0 then
        [Event.saveCheckpoint ("save_" ++ zeroPad3 (epoch + 1) ++ ".pth") epoch
          (ext.modelState epoch) (ext.optState epoch), Event.cleanupDir]
      else []) := by
    unfold periodicCheckpoint
    rw [if_neg hf]
    split <;> rfl
  refine ⟨(phasesOf c).map (fun p => Event.runPhase p epoch) ++
    Event.schedStep (SchedArg.epochIdx epoch) ::
      (([] : List Event) ++
        (if epoch % c.checkpoint_frequency = 0 then
          [Event.saveCheckpoint ("save_" ++ zeroPad3 (epoch + 1) ++ ".pth") epoch
            (ext.modelState epoch) (ext.optState epoch), Event.cleanupDir]
        else []) ++
        (if breakFlag c st epoch then [Event.earlyStop epoch] else [])), ?_⟩
  simp only [runEpoch, h2, h1, h3, h4]

/-- With an empty accuracy history the break test reduces to the comparison
of the epoch with the patience. -/
theorem breakFlag_nil (c : Config) (st : LoopState) (epoch : ℕ)
    (hh : st.val_acc_history = []) :
    breakFlag c st epoch = decide (c.early_stopping_patience < epoch) := by
  unfold breakFlag lastSlice
  rw [hh]
  split <;> simp

/-- Without a validation phase the loop over a long enough range of epochs
runs to the first epoch exceeding the patience and stops there, leaving the
state untouched. -/
theorem runEpochs_noval (c : Config) (ext : Externals)
    (hV : c.hasValidation = false) (hpl : c.lr_scheduler ≠ "plateau")
    (hf : c.checkpoint_frequency ≠ 0) :
    ∀ (n s : ℕ) (st : LoopState), st.val_acc_history = [] →
      max s (c.early_stopping_patience + 1) < s + n →
      ∃ evs, runEpochs c ext (List.range' s n) st = Except.ok (evs, st) ∧
        earlyStopsOf evs = [max s (c.early_stopping_patience + 1)] ∧
        trainRunsOf evs = List.range' s (max s (c.early_stopping_patience + 1) + 1 - s) := by
  intro n
  induction n with
  | zero =>
    intro s st hh hreach
    exact absurd hreach (by omega)
  | succ nn ih =>
    intro s st hh hreach
    obtain ⟨evs1, hok⟩ := runEpoch_noval_ok c ext st s hV hpl hf
    have hbrk := breakFlag_nil c st s hh
    have htr1 := runEpoch_trainRuns c ext st s st evs1 (breakFlag c st s) hok
    have hes1 := runEpoch_earlyStops c ext st s st evs1 (breakFlag c st s) hok
    rw [List.range'_succ]
    by_cases hgt : c.early_stopping_patience < s
    · have hE : max s (c.early_stopping_patience + 1) = s := by omega
      have hbrkT : breakFlag c st s = true := by
        rw [hbrk]
        simpa using hgt
      refine ⟨evs1, ?_, ?_, ?_⟩
      · simp only [runEpochs, hok, hbrkT, if_pos]
      · rw [hes1, hbrkT, if_pos rfl, hE]
      · rw [htr1, hE]
        have hone : s + 1 - s = 1 := by omega
        rw [hone]
        rfl
    · have hE : max s (c.early_stopping_patience + 1) = c.early_stopping_patience + 1 := by omega
      have hE2 : max (s + 1) (c.early_stopping_patience + 1) = c.early_stopping_patience + 1 := by
        omega
      have hbrkF : breakFlag c st s = false := by
        rw [hbrk]
        simpa using hgt
      have hreach2 : max (s + 1) (c.early_stopping_patience + 1) < (s + 1) + nn := by omega
      obtain ⟨evs2, hok2, hes2, htr2⟩ := ih (s + 1) st hh hreach2
      refine ⟨evs1 ++ evs2, ?_, ?_, ?_⟩
      · simp only [runEpochs, hok, hbrkF, Bool.false_eq_true, if_false, hok2]
      · have hdist : earlyStopsOf (evs1 ++ evs2) = earlyStopsOf evs1 ++ earlyStopsOf evs2 := by
          simp [earlyStopsOf]
        rw [hdist, hes1, hbrkF, hes2, hE2, hE]
        simp
      · have hdist : trainRunsOf (evs1 ++ evs2) = trainRunsOf evs1 ++ trainRunsOf evs2 := by
          simp [trainRunsOf]
        rw [hdist, htr1, htr2, hE2, hE]
        have hk : c.early_stopping_patience + 1 + 1 - (s + 1) = c.early_stopping_patience + 1 - s := by
          omega
        have hk2 : c.early_stopping_patience + 1 + 1 - s = (c.early_stopping_patience + 1 - s) + 1 := by
          omega
        rw [hk, hk2, List.range'_succ]
        rfl

/-- C9: without a validation loader the accuracy history stays empty, so the
early-stopping slice is empty and its all-below-best test vacuously true;
hence every long enough run stops at the first epoch whose index exceeds the
patience, regardless of training progress. -/
theorem no_validation_early_stop (c : Config) (ext : Externals)
    (hV : c.hasValidation = false) (hpl : c.lr_scheduler ≠ "plateau")
    (hf : c.checkpoint_frequency ≠ 0)
    (hreach : max c.start_epoch (c.early_stopping_patience + 1) ≤ c.num_epochs) :
    ∃ evs, runTrain c ext = Except.ok (evs, initLoopState) ∧
      initLoopState.val_acc_history = [] ∧
      earlyStopsOf evs = [max c.start_epoch (c.early_stopping_patience + 1)] ∧
      trainRunsOf evs = List.range' c.start_epoch
        (max c.start_epoch (c.early_stopping_patience + 1) + 1 - c.start_epoch) := by
  obtain ⟨evs, hok, hes, htr⟩ := runEpochs_noval c ext hV hpl hf
    (c.num_epochs + 1 - c.start_epoch) c.start_epoch initLoopState rfl (by omega)
  refine ⟨evs, ?_, rfl, hes, htr⟩
  unfold runTrain
  rw [if_neg (by intro hcond; exact hpl hcond.1)]
  exact hok

/-- Sample configuration with a validation phase, plateau policy, patience 2
and checkpoint frequency 2. -/
def demoConfig : Config :=
  { start_epoch := 1, num_epochs := 6, checkpoint_frequency := 2,
    early_stopping_patience := 2, lr_scheduler := "plateau", hasValidation := true }

/-- Sample external results: the validation accuracy peaks at epoch 1 and is
zero afterwards. -/
def demoExternals : Externals :=
  { trainLoss := fun _ => 1, trainAcc := fun _ => 1, valLoss := fun _ => 2,
    valAcc := fun e => if e = 1 then 1 else 0,
    modelState := fun e => 10 + e, optState := fun e => 20 + e }

/-- Outcome of the sample iteration at epoch 1. -/
def demoEpochResult : LoopState × List Event × Bool :=
  match runEpoch demoConfig demoExternals initLoopState 1 with
  | Except.ok r => r
  | Except.error _ => (initLoopState, [], false)

/-- Outcome of the sample iteration at epoch 2. -/
def demoEpochResult2 : LoopState × List Event × Bool :=
  match runEpoch demoConfig demoExternals initLoopState 2 with
  | Except.ok r => r
  | Except.error _ => (initLoopState, [], false)

/-- Outcome of the sample whole run. -/
def demoRunResult : List Event × LoopState :=
  match runTrain demoConfig demoExternals with
  | Except.ok r => r
  | Except.error _ => ([], initLoopState)

theorem early_stopping_break_iff_witness :
    demoEpochResult.2.2 = true ↔ (demoConfig.early_stopping_patience < 1 ∧
      ∀ a ∈ demoEpochResult.1.val_acc_history.drop
        (demoEpochResult.1.val_acc_history.length - demoConfig.early_stopping_patience),
        a < demoEpochResult.1.best_val_acc) :=
  early_stopping_break_iff demoConfig demoExternals initLoopState 1
    demoEpochResult.1 demoEpochResult.2.1 demoEpochResult.2.2 rfl (by decide) (by rfl)

theorem best_checkpoint_iff_witness :
    initLoopState.best_val_acc = 0 ∧
    (bestSavesOf demoEpochResult.2.1 = if initLoopState.best_val_acc < demoExternals.valAcc 1 then
        [(1, demoExternals.modelState 1, demoExternals.optState 1)] else []) ∧
    (demoEpochResult.1.best_val_acc = if initLoopState.best_val_acc < demoExternals.valAcc 1
        then demoExternals.valAcc 1 else initLoopState.best_val_acc) :=
  best_checkpoint_iff demoConfig demoExternals initLoopState 1 demoEpochResult.1
    demoEpochResult.2.1 demoEpochResult.2.2 rfl (by rfl)

theorem scheduler_step_policy_witness :
    schedStepsOf demoEpochResult.2.1 =
      [if demoConfig.lr_scheduler = "plateau" then SchedArg.valLoss (demoExternals.valLoss 1)
        else SchedArg.epochIdx 1] :=
  scheduler_step_policy demoConfig demoExternals initLoopState 1 demoEpochResult.1
    demoEpochResult.2.1 demoEpochResult.2.2 (fun _ => rfl) (by rfl)

theorem phase_order_witness :
    phaseRunsOf demoEpochResult.2.1 = if demoConfig.hasValidation
      then [("train", 1), ("validation", 1)] else [("train", 1)] :=
  phase_order demoConfig demoExternals initLoopState 1 demoEpochResult.1
    demoEpochResult.2.1 demoEpochResult.2.2 (by rfl)

theorem periodic_checkpoint_spec_witness :
    (Event.cleanupDir ∈ demoEpochResult2.2.1 ↔ 2 % demoConfig.checkpoint_frequency = 0) ∧
    (2 % demoConfig.checkpoint_frequency = 0 →
      ∃ pre post, demoEpochResult2.2.1 = pre ++ Event.saveCheckpoint
        ("save_" ++ zeroPad3 (2 + 1) ++ ".pth") 2 (demoExternals.modelState 2)
        (demoExternals.optState 2) :: Event.cleanupDir :: post) ∧
    (¬ 2 % demoConfig.checkpoint_frequency = 0 →
      ∀ p n m o, Event.saveCheckpoint p n m o ∈ demoEpochResult2.2.1 → p = "save_best.pth") :=
  periodic_checkpoint_spec demoConfig demoExternals initLoopState 2 demoEpochResult2.1
    demoEpochResult2.2.1 demoEpochResult2.2.2 (by rfl)

theorem checkpoint_filename_offset_witness :
    (∀ p n m o, Event.saveCheckpoint p n m o ∈ demoEpochResult2.2.1 →
      p = "save_best.pth" ∨ (p = "save_" ++ zeroPad3 (n + 1) ++ ".pth" ∧ n = 2)) ∧
    ∀ ch ∈ ("save_best.pth" : String).data, ch.isDigit = false :=
  checkpoint_filename_offset demoConfig demoExternals initLoopState 2 demoEpochResult2.1
    demoEpochResult2.2.1 demoEpochResult2.2.2 (by rfl)

theorem checkpoint_atomic_state_witness :
    11 = demoExternals.modelState 1 ∧ 21 = demoExternals.optState 1 :=
  checkpoint_atomic_state demoConfig demoExternals demoRunResult.1 demoRunResult.2 (by rfl)
    "save_best.pth" 1 11 21 (by decide)

theorem epoch_counter_monotone_witness :
    ∃ k, trainRunsOf demoRunResult.1 = List.range' demoConfig.start_epoch k ∧
      ∀ e ∈ trainRunsOf demoRunResult.1, e ≤ demoConfig.num_epochs :=
  epoch_counter_monotone demoConfig demoExternals demoRunResult.1 demoRunResult.2 (by rfl)

/-- Sample configuration with the plateau policy and no validation loader. -/
def badConfig : Config :=
  { start_epoch := 1, num_epochs := 3, checkpoint_frequency := 1,
    early_stopping_patience := 1, lr_scheduler := "plateau", hasValidation := false }

theorem plateau_requires_validation_witness :
    runTrain badConfig demoExternals = Except.error "AssertionError" :=
  (plateau_requires_validation badConfig demoExternals).1 rfl rfl

/-- Sample configuration with a milestone policy and no validation loader. -/
def novalConfig : Config :=
  { start_epoch := 1, num_epochs := 6, checkpoint_frequency := 2,
    early_stopping_patience := 2, lr_scheduler := "milestones", hasValidation := false }

theorem no_validation_early_stop_witness :
    ∃ evs, runTrain novalConfig demoExternals = Except.ok (evs, initLoopState) ∧
      initLoopState.val_acc_history = [] ∧
      earlyStopsOf evs = [max novalConfig.start_epoch (novalConfig.early_stopping_patience + 1)] ∧
      trainRunsOf evs = List.range' novalConfig.start_epoch
        (max novalConfig.start_epoch (novalConfig.early_stopping_patience + 1) + 1 -
          novalConfig.start_epoch) :=
  no_validation_early_stop novalConfig demoExternals rfl (by decide) (by decide) (by decide)
